import Mathlib

/-!
Shallow embedding of a Unit-of-Work / Mapper persistence core (main.py):
domain entities (User, Message), change-tracking proxies, a mapper Registry,
a UnitOfWork accumulating new/dirty registrations, mappers issuing batched
updates, and a repository loading a proxy-wrapped aggregate from a joined
query.  Python dicts are modelled as insertion-ordered association lists,
the object heap as explicit lists indexed by allocation order, and raised
exceptions as Except/Option results.
-/

set_option autoImplicit false

universe u v

variable {κ : Type u} {α : Type v} {ε : Type v}

/-- Python dict assignment `d[k] = v` on an insertion-ordered dict:
overwrite in place if the key exists, otherwise append the new key at the
end (CPython insertion order). -/
def dictSet [DecidableEq κ] : List (κ × α) → κ → α → List (κ × α)
  | [], k, v => [(k, v)]
  | (k', v') :: rest, k, v =>
      if k' = k then (k', v) :: rest else (k', v') :: dictSet rest k v

/-- Python `d.get(k)`: the stored value, or None. -/
def dictGet [DecidableEq κ] : List (κ × α) → κ → Option α
  | [], _ => none
  | (k', v') :: rest, k => if k' = k then some v' else dictGet rest k

/-- Python `d.setdefault(k, []).append(e)`: append to the list stored under
`k`, creating it (at the end of the dict, per insertion order) if absent. -/
def dictAppend [DecidableEq κ] : List (κ × List ε) → κ → ε → List (κ × List ε)
  | [], k, e => [(k, [e])]
  | (k', es) :: rest, k, e =>
      if k' = k then (k', es ++ [e]) :: rest else (k', es) :: dictAppend rest k e

/-- The list stored under `k`, defaulting to the empty list. -/
def dictList [DecidableEq κ] (d : List (κ × List ε)) (k : κ) : List ε :=
  (dictGet d k).getD []

theorem dictGet_dictSet_self [DecidableEq κ] (d : List (κ × α)) (k : κ) (v : α) :
    dictGet (dictSet d k v) k = some v := by
  induction d with
  | nil => simp [dictSet, dictGet]
  | cons p rest ih =>
      obtain ⟨k', v'⟩ := p
      by_cases h : k' = k <;> simp [dictSet, dictGet, h, ih]

theorem dictList_dictAppend_self [DecidableEq κ] (d : List (κ × List ε)) (k : κ) (e : ε) :
    dictList (dictAppend d k e) k = dictList d k ++ [e] := by
  induction d with
  | nil => simp [dictAppend, dictList, dictGet]
  | cons p rest ih =>
      obtain ⟨k', es⟩ := p
      by_cases h : k' = k <;> simp [dictAppend, dictList, dictGet, h] <;>
        simpa [dictList] using ih

/-- A Python object registered as a mapper.  Only its truthiness (what
`if not mapper` tests) and an identity tag are observable to the core. -/
structure MapperV where
  truthy : Bool
  tag : Nat
deriving DecidableEq

/-- The mapper registry: a dict from mapper-kind to the registered value. -/
def Registry (κ : Type u) : Type u := List (κ × MapperV)

/-- Registry.register_mapper: `self._mappers[mapper_type] = mapper`. -/
def Registry.register_mapper [DecidableEq κ] (r : Registry κ) (k : κ) (m : MapperV) :
    Registry κ :=
  dictSet r k m

/-- Registry.get: `mapper = self._mappers.get(mapper_type)`, then
`if not mapper: raise Exception(..)` — a missing key yields None (falsy),
and a registered falsy value fails the same way. -/
def Registry.get [DecidableEq κ] (r : Registry κ) (k : κ) : Except String MapperV :=
  match dictGet r k with
  | none => Except.error "Mapper not found"
  | some m => if m.truthy then Except.ok m else Except.error "Mapper not found"

/-- UnitOfWork state: two insertion-ordered dicts, mapper-kind to ordered
entity list (`self._new`, `self._dirty`). -/
structure UnitOfWork (κ : Type u) (ε : Type v) where
  new : List (κ × List ε)
  dirty : List (κ × List ε)
deriving DecidableEq

/-- UnitOfWork.register_new: `self._new.setdefault(mapper, []).append(entity)`. -/
def UnitOfWork.register_new [DecidableEq κ] (u : UnitOfWork κ ε) (k : κ) (e : ε) :
    UnitOfWork κ ε :=
  { u with new := dictAppend u.new k e }

/-- UnitOfWork.register_dirty: `self._dirty.setdefault(mapper, []).append(entity)`. -/
def UnitOfWork.register_dirty [DecidableEq κ] (u : UnitOfWork κ ε) (k : κ) (e : ε) :
    UnitOfWork κ ε :=
  { u with dirty := dictAppend u.dirty k e }

/-- n-fold repetition of register_dirty with the same kind and entity. -/
def UnitOfWork.register_dirty_iter [DecidableEq κ] (u : UnitOfWork κ ε) (k : κ) (e : ε) :
    Nat → UnitOfWork κ ε
  | 0 => u
  | n + 1 => (u.register_dirty_iter k e n).register_dirty k e

/-- n-fold repetition of register_new with the same kind and entity. -/
def UnitOfWork.register_new_iter [DecidableEq κ] (u : UnitOfWork κ ε) (k : κ) (e : ε) :
    Nat → UnitOfWork κ ε
  | 0 => u
  | n + 1 => (u.register_new_iter k e n).register_new k e

/-- Observable outcome of UnitOfWork.commit: which (kind, entity-list)
pairs had update_all invoked, in order; whether the underlying transaction
commit (`self._connection.commit()`) ran; and the raised error, if any. -/
structure CommitOutcome (κ : Type u) (ε : Type v) where
  flushed : List (κ × List ε)
  txCommitted : Bool
  err : Option String
deriving DecidableEq

/-- The loop of UnitOfWork.commit over `self._dirty.items()`: resolve each
kind through the registry and invoke that mapper's update_all with the full
list; after the loop, commit the underlying transaction.  A failed lookup
raises, ending the loop before the transaction commit. -/
def commitRun [DecidableEq κ] (reg : Registry κ) : List (κ × List ε) → CommitOutcome κ ε
  | [] => ⟨[], true, none⟩
  | (k, es) :: rest =>
    match Registry.get reg k with
    | Except.error msg => ⟨[], false, some msg⟩
    | Except.ok _ =>
        let r := commitRun reg rest
        ⟨(k, es) :: r.flushed, r.txCommitted, r.err⟩

/-- UnitOfWork.commit: runs the dirty-flush loop; the method reads only
`self._dirty` and mutates neither map, so the state component is returned
unchanged. -/
def UnitOfWork.commit [DecidableEq κ] (reg : Registry κ) (u : UnitOfWork κ ε) :
    CommitOutcome κ ε × UnitOfWork κ ε :=
  (commitRun reg u.dirty, u)

theorem commitRun_flushed_mem [DecidableEq κ] (reg : Registry κ)
    (d : List (κ × List ε)) : ∀ p ∈ (commitRun reg d).flushed, p ∈ d := by
  induction d with
  | nil => simp [commitRun]
  | cons q rest ih =>
      obtain ⟨k, es⟩ := q
      intro p hp
      simp only [commitRun] at hp
      cases hget : Registry.get reg k with
      | error msg => rw [hget] at hp; simp at hp
      | ok m =>
          rw [hget] at hp
          simp only [List.mem_cons] at hp ⊢
          rcases hp with h | h
          · exact Or.inl h
          · exact Or.inr (ih p h)

/-- Claim C6: register_new and register_dirty always append the entity to
the end of the list for the given kind, creating the list if absent and
never deduplicating; registering the same entity n times under one kind
yields n occurrences, in registration order. -/
theorem register_append_no_dedup [DecidableEq κ] (u : UnitOfWork κ ε) (k : κ) (e : ε) :
    dictList (u.register_dirty k e).dirty k = dictList u.dirty k ++ [e]
    ∧ dictList (u.register_new k e).new k = dictList u.new k ++ [e]
    ∧ (∀ n : Nat, dictList (u.register_dirty_iter k e n).dirty k
        = dictList u.dirty k ++ List.replicate n e)
    ∧ (∀ n : Nat, dictList (u.register_new_iter k e n).new k
        = dictList u.new k ++ List.replicate n e) := by
  refine ⟨dictList_dictAppend_self u.dirty k e, dictList_dictAppend_self u.new k e, ?_, ?_⟩
  · intro n
    induction n with
    | zero => simp [UnitOfWork.register_dirty_iter]
    | succ n ih =>
        rw [UnitOfWork.register_dirty_iter, UnitOfWork.register_dirty,
          dictList_dictAppend_self, ih, List.replicate_succ']
        simp
  · intro n
    induction n with
    | zero => simp [UnitOfWork.register_new_iter]
    | succ n ih =>
        rw [UnitOfWork.register_new_iter, UnitOfWork.register_new,
          dictList_dictAppend_self, ih, List.replicate_succ']
        simp

/-- Claim C8: registry registration is last-write-wins (after registering
m2 over m1 under the same kind, get returns m2), and get on a never
registered kind fails with the mapper-not-found error. -/
theorem registry_last_write_wins [DecidableEq κ] (reg : Registry κ) (k : κ)
    (m1 m2 : MapperV) (h2 : m2.truthy = true) :
    Registry.get (Registry.register_mapper (Registry.register_mapper reg k m1) k m2) k
      = Except.ok m2
    ∧ ∀ k' : κ, dictGet reg k' = none →
        Registry.get reg k' = Except.error "Mapper not found" := by
  constructor
  · rw [Registry.get, Registry.register_mapper, dictGet_dictSet_self]
    simp [h2]
  · intro k' hk'
    rw [Registry.get, hk']

/-- Claim C10: Registry.get tests the stored mapper for truthiness, not
presence: a kind registered with a falsy value still fails with the
mapper-not-found error, and a successful get implies the mapper is truthy. -/
theorem registry_get_requires_truthy [DecidableEq κ] (reg : Registry κ) (k : κ)
    (m : MapperV) (h : m.truthy = false) :
    Registry.get (reg.register_mapper k m) k = Except.error "Mapper not found"
    ∧ ∀ (r : Registry κ) (k' : κ) (m' : MapperV),
        Registry.get r k' = Except.ok m' → m'.truthy = true := by
  constructor
  · rw [Registry.get, Registry.register_mapper, dictGet_dictSet_self]
    simp [h]
  · intro r k' m' hget
    rw [Registry.get] at hget
    cases hd : dictGet r k' with
    | none => rw [hd] at hget; cases hget
    | some mm =>
        rw [hd] at hget
        by_cases ht : mm.truthy
        · simp [ht] at hget
          simpa [← hget] using ht
        · simp [ht] at hget

/-- Claim C3: if the dirty map holds a kind with no registry entry, commit
raises the mapper-not-found error before the underlying transaction commit;
every kind before the (first) missing one in iteration order has had its
update_all invoked, and no kind at or after it is flushed. -/
theorem commit_fail_fast_partial_flush [DecidableEq κ] (reg : Registry κ)
    (pre post : List (κ × List ε)) (k : κ) (es : List ε)
    (hpre : ∀ p ∈ pre, ∃ m, Registry.get reg p.1 = Except.ok m)
    (hk : dictGet reg k = none) :
    commitRun reg (pre ++ (k, es) :: post)
      = ⟨pre, false, some "Mapper not found"⟩ := by
  induction pre with
  | nil =>
      have hfail : Registry.get reg k = Except.error "Mapper not found" := by
        rw [Registry.get, hk]
      simp [commitRun, hfail]
  | cons q rest ih =>
      obtain ⟨k1, e1⟩ := q
      obtain ⟨m, hm⟩ := hpre (k1, e1) (List.mem_cons_self _ _)
      have ih' := ih (fun p hp => hpre p (List.mem_cons_of_mem _ hp))
      simp [commitRun, hm, ih']

/-- Claim C5: commit never reads or flushes the new map (its outcome is
independent of it and only dirty entries are dispatched), and it leaves
both maps unchanged, so a second commit re-dispatches the same dirty
lists. -/
theorem commit_skips_new_and_preserves_state [DecidableEq κ]
    (reg : Registry κ) (n1 n2 d : List (κ × List ε)) :
    (UnitOfWork.commit reg ⟨n1, d⟩).1 = (UnitOfWork.commit reg ⟨n2, d⟩).1
    ∧ (UnitOfWork.commit reg ⟨n1, d⟩).2 = ⟨n1, d⟩
    ∧ (UnitOfWork.commit reg ((UnitOfWork.commit reg ⟨n1, d⟩).2)).1
        = (UnitOfWork.commit reg ⟨n1, d⟩).1
    ∧ ∀ p ∈ (UnitOfWork.commit reg ⟨n1, d⟩).1.flushed, p ∈ d :=
  ⟨rfl, rfl, rfl, commitRun_flushed_mem reg d⟩

/-- A Message entity: identity and mutable body. -/
structure Message where
  message_id : Nat
  body : String
deriving DecidableEq

/-- An element of a loaded User's `_messages` list.  The repository stores
MessageProxy objects there (behind a `cast` to `list[Message]`), but the
list could equally hold raw Message objects; Python dispatches `.edit` and
`.message_id` dynamically on whichever object is present, so the slot
records which one it is.  Either way the payload is a reference (heap
index) to a raw Message object. -/
inductive MsgSlot
  | raw (ref : Nat)
  | proxy (ref : Nat)
deriving DecidableEq

/-- A User entity: identity, mutable name, and its owned message list. -/
structure User where
  user_id : Nat
  name : String
  messages : List MsgSlot
deriving DecidableEq

/-- Mapper-kind tokens: the class objects MessageMapper and UserMapper,
used as dict keys in the registry and the unit of work. -/
inductive Kind
  | messageMapper
  | userMapper
deriving DecidableEq

/-- An entity registered in the unit of work: a reference to a raw Message
or User object on the heap. -/
inductive Entity
  | msg (ref : Nat)
  | user (ref : Nat)
deriving DecidableEq

/-- A row of the `users` table. -/
structure UserRow where
  id : Nat
  name : String
deriving DecidableEq

/-- A row of the `messages` table. -/
structure MsgRow where
  id : Nat
  body : String
  user_id : Nat
deriving DecidableEq

/-- The relational store. -/
structure DB where
  users : List UserRow
  messages : List MsgRow
deriving DecidableEq

/-- The whole mutable state of the program: the object heaps (lists indexed
by allocation order), the unit of work, the database visible to the single
connection, and whether the transaction was committed. -/
structure World where
  heapMsgs : List Message
  heapUsers : List User
  uow : UnitOfWork Kind Entity
  db : DB
  txCommitted : Bool
deriving DecidableEq

/-- In-place update of the object at a given heap index (no-op when out of
range, which never happens for references held by live objects). -/
def listModify {β : Type v} (f : β → β) : Nat → List β → List β
  | _, [] => []
  | 0, b :: l => f b :: l
  | n + 1, b :: l => b :: listModify f n l

/-- Registering an entity dirty in the world's unit of work. -/
def World.registerDirty (k : Kind) (e : Entity) (w : World) : World :=
  { w with uow := w.uow.register_dirty k e }

/-- Message.edit: `self._body = body` on the raw entity — a pure heap
mutation, no unit-of-work interaction. -/
def Message.edit (ref : Nat) (body : String) (w : World) : World :=
  { w with heapMsgs := listModify (fun m => { m with body := body }) ref w.heapMsgs }

/-- MessageProxy.edit: first `unit_of_work.register_dirty(mapper=MessageMapper,
entity=self._message)` with the raw wrapped entity, then delegate to the raw
entity's edit. -/
def MessageProxy.edit (ref : Nat) (body : String) (w : World) : World :=
  Message.edit ref body (World.registerDirty Kind.messageMapper (Entity.msg ref) w)

/-- Reading `.message_id` off a list element: both the raw entity attribute
and the proxy's pass-through property read the raw Message's identity. -/
def MsgSlot.get_message_id (w : World) : MsgSlot → Option Nat
  | MsgSlot.raw r => (w.heapMsgs[r]?).map Message.message_id
  | MsgSlot.proxy r => (w.heapMsgs[r]?).map Message.message_id

/-- Calling `.edit(body)` on a list element: dynamic dispatch — a raw
Message runs Message.edit, a MessageProxy runs the intercepting
MessageProxy.edit. -/
def MsgSlot.dispatch_edit (s : MsgSlot) (body : String) (w : World) : World :=
  match s with
  | MsgSlot.raw r => Message.edit r body w
  | MsgSlot.proxy r => MessageProxy.edit r body w

/-- User.edit_message: linear scan over `self._messages`; every element
whose message_id equals the argument gets `.edit(body)` called on it (no
break, no error on zero matches). -/
def User.edit_message (uref : Nat) (mid : Nat) (body : String) (w : World) : World :=
  match w.heapUsers[uref]? with
  | none => w
  | some u =>
      u.messages.foldl
        (fun w' s =>
          if s.get_message_id w' = some mid then s.dispatch_edit body w' else w') w

/-- User.rename: `self._name = new_name` on the raw entity. -/
def User.rename (uref : Nat) (new_name : String) (w : World) : World :=
  { w with heapUsers := listModify (fun u => { u with name := new_name }) uref w.heapUsers }

/-- UserProxy.rename: register the raw wrapped User dirty under the
UserMapper kind, then delegate. -/
def UserProxy.rename (uref : Nat) (new_name : String) (w : World) : World :=
  User.rename uref new_name (World.registerDirty Kind.userMapper (Entity.user uref) w)

/-- UserProxy.edit_message: pure pass-through to the wrapped raw User's
edit_message — the user proxy itself registers nothing. -/
def UserProxy.edit_message (uref : Nat) (mid : Nat) (body : String) (w : World) : World :=
  User.edit_message uref mid body w

/-- One row of the repository's joined select: user and message columns
under their labels. -/
structure Row where
  user_id : Nat
  user_name : String
  message_id : Nat
  message_body : String
deriving DecidableEq

/-- The joined query of UserRepository.with_id: select from users joined
with messages on `messages.user_id = users.id`, filtered on
`users.id = user_id`; one row per matching (user, message) pair, in table
order. -/
def with_id_rows (db : DB) (uid : Nat) : List Row :=
  (db.users.filter (fun u => u.id == uid)).flatMap
    (fun u => (db.messages.filter (fun m => m.user_id == u.id)).map
      (fun m => ⟨u.id, u.name, m.id, m.body⟩))

/-- The value of Python's loop variable after `for row in result`: the last
element, or unassigned when the result is empty. -/
def lastRow? : List Row → Option Row
  | [] => none
  | [r] => some r
  | _ :: r2 :: rest => lastRow? (r2 :: rest)

/-- UserRepository._load: allocate one Message per result row (in row
order) and wrap each in a MessageProxy; after the loop, read the user
columns off the loop variable `row` — the LAST row, unassigned (raising
UnboundLocalError) when the result is empty — build the User around the
proxy list, wrap it in a UserProxy and return it.  The returned value is
the heap reference of the freshly allocated User the proxy wraps. -/
def UserRepository.load (rows : List Row) (w : World) : Except String (Nat × World) :=
  match lastRow? rows with
  | none => Except.error "UnboundLocalError"
  | some last =>
      let base := w.heapMsgs.length
      let newMsgs := rows.map (fun r => Message.mk r.message_id r.message_body)
      let slots := (List.range rows.length).map (fun i => MsgSlot.proxy (base + i))
      Except.ok (w.heapUsers.length,
        { w with
            heapMsgs := w.heapMsgs ++ newMsgs,
            heapUsers := w.heapUsers ++ [⟨last.user_id, last.user_name, slots⟩] })

/-- UserRepository.with_id: execute the joined select and load from it. -/
def UserRepository.with_id (uid : Nat) (w : World) : Except String (Nat × World) :=
  UserRepository.load (with_id_rows w.db uid) w

/-- The batched UPDATE of MessageMapper.update_all, applied one parameter
set at a time: `UPDATE messages SET body = :body WHERE id = :message_id`. -/
def DB.updateMsgBody (db : DB) (mid : Nat) (body : String) : DB :=
  { db with messages :=
      db.messages.map (fun m => if m.id == mid then { m with body := body } else m) }

/-- The batched UPDATE of UserMapper.update_all, applied one parameter set
at a time: `UPDATE users SET name = :name WHERE id = :user_id`. -/
def DB.updateUserName (db : DB) (uid : Nat) (new_name : String) : DB :=
  { db with users :=
      db.users.map (fun u => if u.id == uid then { u with name := new_name } else u) }

/-- MessageMapper.update_all: build one parameter set (body, message_id)
per entity from the entity's current state, then execute the batched
UPDATE once.  An entity that is not a live Message raises (AttributeError)
while the parameters are built, before anything executes. -/
def MessageMapper.update_all (es : List Entity) (w : World) : Except String World := do
  let params ← es.mapM (fun e =>
    match e with
    | Entity.msg r =>
        match w.heapMsgs[r]? with
        | some m => Except.ok (m.body, m.message_id)
        | none => Except.error "AttributeError"
    | Entity.user _ => Except.error "AttributeError")
  Except.ok { w with db := params.foldl (fun db p => db.updateMsgBody p.2 p.1) w.db }

/-- UserMapper.update_all: one parameter set (name, user_id) per entity,
then one batched UPDATE. -/
def UserMapper.update_all (es : List Entity) (w : World) : Except String World := do
  let params ← es.mapM (fun e =>
    match e with
    | Entity.user r =>
        match w.heapUsers[r]? with
        | some u => Except.ok (u.name, u.user_id)
        | none => Except.error "AttributeError"
    | Entity.msg _ => Except.error "AttributeError")
  Except.ok { w with db := params.foldl (fun db p => db.updateUserName p.2 p.1) w.db }

/-- The commit loop over the dirty dict, with the concrete mappers wired in
by the driver (the instance registered under each kind is the mapper of
that kind).  On a registry miss or a mapper failure the loop stops with the
error and the world keeps all updates executed so far, uncommitted. -/
def World.commitGo (reg : Registry Kind) :
    List (Kind × List Entity) → World → World × Option String
  | [], w => ({ w with txCommitted := true }, none)
  | (k, es) :: rest, w =>
      match Registry.get reg k with
      | Except.error e => (w, some e)
      | Except.ok _ =>
          match (match k with
                 | Kind.messageMapper => MessageMapper.update_all es w
                 | Kind.userMapper => UserMapper.update_all es w) with
          | Except.error e => (w, some e)
          | Except.ok w' => World.commitGo reg rest w'

/-- UnitOfWork.commit instantiated with the concrete mappers: flush every
dirty kind in iteration order, then commit the transaction. -/
def World.commit (reg : Registry Kind) (w : World) : World × Option String :=
  World.commitGo reg w.uow.dirty w

/-- The driver wiring: MessageMapper then UserMapper registered under their
own class tokens (both real, truthy instances). -/
def mainRegistry : Registry Kind :=
  Registry.register_mapper
    (Registry.register_mapper [] Kind.messageMapper ⟨true, 0⟩)
    Kind.userMapper ⟨true, 1⟩

/-- The seeded database of the driver script. -/
def seededDB : DB :=
  { users := [⟨1, "bob"⟩, ⟨2, "sam"⟩, ⟨3, "von"⟩],
    messages := [⟨1, "body 1", 1⟩, ⟨2, "body 2", 1⟩, ⟨3, "body 3", 1⟩,
      ⟨4, "body 4", 2⟩] }

/-- The program state right before Interactor.execute runs: empty heaps, an
empty unit of work, and the seeded store. -/
def initialWorld : World :=
  { heapMsgs := [], heapUsers := [], uow := ⟨[], []⟩, db := seededDB,
    txCommitted := false }

/-- Interactor.execute: load user 1, edit messages 1 and 2 through the
returned (user-level) proxy, rename, and commit the unit of work. -/
def Interactor.execute (w : World) : Except String World := do
  let (uref, w1) ← UserRepository.with_id 1 w
  let w2 := UserProxy.edit_message uref 1 "new message body 1" w1
  let w3 := UserProxy.edit_message uref 2 "new message body 2" w2
  let w4 := UserProxy.rename uref "new username" w3
  match World.commit mainRegistry w4 with
  | (_, some e) => Except.error e
  | (w5, none) => Except.ok w5

/-- The driver's final queries: the body column of a message row by id. -/
def DB.msgBody (db : DB) (mid : Nat) : Option String :=
  (db.messages.find? (fun m => m.id == mid)).map MsgRow.body

/-- The driver's final queries: the name column of a user row by id. -/
def DB.userName (db : DB) (uid : Nat) : Option String :=
  (db.users.find? (fun u => u.id == uid)).map UserRow.name

/-- The world produced by loading user 1 from the seeded store: three fresh
Message objects on the heap, one User whose message list holds three
message proxies, and a still-empty unit of work. -/
def loadedWorld1 : World :=
  { heapMsgs := [⟨1, "body 1"⟩, ⟨2, "body 2"⟩, ⟨3, "body 3"⟩],
    heapUsers := [⟨1, "bob", [MsgSlot.proxy 0, MsgSlot.proxy 1, MsgSlot.proxy 2]⟩],
    uow := ⟨[], []⟩, db := seededDB, txCommitted := false }

/-- Counterexample to claim C1: on the aggregate returned by
UserRepository.with_id, edit_message through the user-level proxy is NOT a
persistence no-op — the unit of work goes from an empty dirty map to one
holding the edited raw message, because the message list holds message
proxies whose intercepting edit the inner delegation dispatches to. -/
theorem user_proxy_edit_message_dirty_counterexample :
    UserRepository.with_id 1 initialWorld = Except.ok (0, loadedWorld1)
    ∧ loadedWorld1.uow.dirty = []
    ∧ (UserProxy.edit_message 0 1 "x" loadedWorld1).uow.dirty
        = [(Kind.messageMapper, [Entity.msg 0])] := by
  exact ⟨rfl, rfl, rfl⟩

/-- Lemma: a scan step that matches nothing leaves the world unchanged. -/
theorem foldl_edit_no_match (mid : Nat) (body : String) :
    ∀ (l : List MsgSlot) (w : World),
      (∀ s ∈ l, s.get_message_id w ≠ some mid) →
      l.foldl (fun w' s =>
        if s.get_message_id w' = some mid then s.dispatch_edit body w' else w') w = w := by
  intro l
  induction l with
  | nil => intro w _; rfl
  | cons s rest ih =>
      intro w h
      have hs : s.get_message_id w ≠ some mid := h s (List.mem_cons_self _ _)
      rw [List.foldl_cons, if_neg hs]
      exact ih w (fun s' hs' => h s' (List.mem_cons_of_mem _ hs'))

/-- Lemma: unfolding of the linear scan once the user object is known. -/
theorem user_edit_message_eq (uref mid : Nat) (body : String) (w : World) (u : User)
    (hu : w.heapUsers[uref]? = some u) :
    User.edit_message uref mid body w
      = u.messages.foldl
          (fun w' s =>
            if s.get_message_id w' = some mid then s.dispatch_edit body w' else w') w := by
  rw [User.edit_message, hu]

/-- Claim C1 (amended): edit_message invoked on the user-level proxy DOES
register dirty state whenever a message proxy in the user's list matches:
the user proxy delegates without registering, but the inner call dispatches
to MessageProxy.edit, which appends the raw message to the dirty map under
the MessageMapper kind. -/
theorem user_proxy_edit_message_registers_dirty (w : World) (uref mid : Nat)
    (body : String) (u : User) (p : Nat) (m : Message)
    (hu : w.heapUsers[uref]? = some u)
    (hml : u.messages = [MsgSlot.proxy p])
    (hp : w.heapMsgs[p]? = some m)
    (hid : m.message_id = mid) :
    (UserProxy.edit_message uref mid body w).uow.dirty
      = dictAppend w.uow.dirty Kind.messageMapper (Entity.msg p) := by
  rw [UserProxy.edit_message, user_edit_message_eq uref mid body w u hu, hml]
  have hcond : (MsgSlot.proxy p).get_message_id w = some mid := by
    rw [MsgSlot.get_message_id, hp, Option.map_some', hid]
  rw [List.foldl_cons, if_pos hcond, List.foldl_nil]
  rfl

/-- Witness for the amended claim C1 at a one-message aggregate. -/
theorem user_proxy_edit_message_registers_dirty_witness :
    (UserProxy.edit_message 0 7 "zzz"
        ⟨[⟨7, "old"⟩], [⟨1, "ann", [MsgSlot.proxy 0]⟩], ⟨[], []⟩, ⟨[], []⟩, false⟩).uow.dirty
      = [(Kind.messageMapper, [Entity.msg 0])] :=
  user_proxy_edit_message_registers_dirty
    ⟨[⟨7, "old"⟩], [⟨1, "ann", [MsgSlot.proxy 0]⟩], ⟨[], []⟩, ⟨[], []⟩, false⟩
    0 7 "zzz" ⟨1, "ann", [MsgSlot.proxy 0]⟩ 0 ⟨7, "old"⟩ rfl rfl rfl rfl

/-- Claim C2 (amended): a user id whose joined query yields zero rows makes
with_id fail — the loop never assigns the row variable, so reading the user
columns raises UnboundLocalError (the source defines no NotFoundError) —
and it never returns a user with an empty message list. -/
theorem with_id_empty_join_fails (w : World) (uid : Nat)
    (h : with_id_rows w.db uid = []) :
    UserRepository.with_id uid w = Except.error "UnboundLocalError" := by
  rw [UserRepository.with_id, h]
  rfl

/-- Witness for the amended claim C2: user 5 does not exist in the seeded
store, so the joined query is empty and the load fails. -/
theorem with_id_empty_join_fails_witness :
    with_id_rows initialWorld.db 5 = []
    ∧ UserRepository.with_id 5 initialWorld = Except.error "UnboundLocalError" :=
  ⟨by decide, with_id_empty_join_fails initialWorld 5 (by decide)⟩

/-- Counterexample to claim C2 as stated: the failure raised on an empty
join is an UnboundLocalError, not a NotFoundError. -/
theorem with_id_error_is_not_notfound :
    UserRepository.with_id 5 initialWorld = Except.error "UnboundLocalError"
    ∧ "UnboundLocalError" ≠ "NotFoundError" :=
  ⟨rfl, by decide⟩

/-- Claim C4: the end-to-end scenario — load user 1 from the seeded store,
edit messages 1 and 2 through the returned proxy, rename, commit — leaves
the store with both new message bodies and the new user name. -/
theorem end_to_end_scenario_post_commit :
    ∃ w', Interactor.execute initialWorld = Except.ok w'
      ∧ w'.db.msgBody 1 = some "new message body 1"
      ∧ w'.db.msgBody 2 = some "new message body 2"
      ∧ w'.db.userName 1 = some "new username"
      ∧ w'.txCommitted = true := by
  refine ⟨_, rfl, ?_, ?_, ?_, ?_⟩ <;> rfl

/-- Lemma: Python's post-loop variable holds the last element, which is an
element of the (non-empty) list. -/
theorem lastRow?_cons_mem (r : Row) (rs : List Row) :
    ∃ b, lastRow? (r :: rs) = some b ∧ b ∈ r :: rs := by
  induction rs generalizing r with
  | nil => exact ⟨r, rfl, List.mem_cons_self _ _⟩
  | cons r2 rest ih =>
      obtain ⟨b, hb, hmem⟩ := ih r2
      exact ⟨b, hb, List.mem_cons_of_mem _ hmem⟩

/-- Lemma: when exactly one stored user matches the id (the primary key
guarantees at most one), every row of the join carries that user's
columns. -/
theorem with_id_rows_user_fields (db : DB) (uid : Nat) (u0 : UserRow)
    (hf : db.users.filter (fun u => u.id == uid) = [u0]) :
    ∀ q ∈ with_id_rows db uid, q.user_id = u0.id ∧ q.user_name = u0.name := by
  intro q hq
  rw [with_id_rows, hf] at hq
  simp only [List.flatMap_cons, List.flatMap_nil, List.append_nil, List.mem_map] at hq
  obtain ⟨m, _, rfl⟩ := hq
  exact ⟨rfl, rfl⟩

/-- Claim C7: on a joined result with at least one row (and a store whose
users table holds exactly one row for the queried id, as the primary key
ensures), with_id allocates one fresh Message per result row in query
order, wraps each in a MessageProxy, builds the User from the first row's
user columns together with the full proxy list, wraps it in a UserProxy
and returns it. -/
theorem with_id_builds_proxy_aggregate (w : World) (uid : Nat) (u0 : UserRow)
    (r : Row) (rs : List Row)
    (hf : w.db.users.filter (fun u => u.id == uid) = [u0])
    (hrows : with_id_rows w.db uid = r :: rs) :
    UserRepository.with_id uid w = Except.ok (w.heapUsers.length,
      { w with
          heapMsgs := w.heapMsgs
            ++ (r :: rs).map (fun q => Message.mk q.message_id q.message_body),
          heapUsers := w.heapUsers ++ [⟨r.user_id, r.user_name,
            (List.range (r :: rs).length).map
              (fun i => MsgSlot.proxy (w.heapMsgs.length + i))⟩] }) := by
  have hall := with_id_rows_user_fields w.db uid u0 hf
  obtain ⟨last, hlast, hmem⟩ := lastRow?_cons_mem r rs
  have hlastf := hall last (hrows ▸ hmem)
  have hrf := hall r (by rw [hrows]; exact List.mem_cons_self _ _)
  have h1 : last.user_id = r.user_id := by rw [hlastf.1, hrf.1]
  have h2 : last.user_name = r.user_name := by rw [hlastf.2, hrf.2]
  rw [UserRepository.with_id, hrows]
  simp [UserRepository.load, hlast, h1, h2]

/-- Witness for claim C7 at the seeded store: user 1 owns messages 1, 2, 3,
and the loaded aggregate has the three proxies in query order. -/
theorem with_id_builds_proxy_aggregate_witness :
    UserRepository.with_id 1 initialWorld = Except.ok (0, loadedWorld1) := by
  have h := with_id_builds_proxy_aggregate initialWorld 1 ⟨1, "bob"⟩
    ⟨1, "bob", 1, "body 1"⟩ [⟨1, "bob", 2, "body 2"⟩, ⟨1, "bob", 3, "body 3"⟩]
    (by decide) (by decide)
  exact h

/-- Lemma: reading the heap through listModify at the modified index. -/
theorem listModify_getElem?_self {β : Type v} (f : β → β) :
    ∀ (r : Nat) (l : List β), (listModify f r l)[r]? = (l[r]?).map f := by
  intro r l
  induction l generalizing r with
  | nil => simp [listModify]
  | cons b t ih =>
      cases r with
      | zero => simp [listModify]
      | succ n => simp [listModify, ih]

/-- Lemma: listModify leaves every other index untouched. -/
theorem listModify_getElem?_ne {β : Type v} (f : β → β) :
    ∀ (r p : Nat), r ≠ p → ∀ (l : List β), (listModify f r l)[p]? = l[p]? := by
  intro r p hne l
  induction l generalizing r p with
  | nil => simp [listModify]
  | cons b t ih =>
      cases r with
      | zero =>
          cases p with
          | zero => exact absurd rfl hne
          | succ q => simp [listModify]
      | succ n =>
          cases p with
          | zero => simp [listModify]
          | succ q =>
              simp only [listModify, List.getElem?_cons_succ]
              exact ih n q (fun h => hne (by rw [h]))

/-- Lemma: the scan over a list of raw messages, characterized pointwise on
the message heap — each heap cell is body-overwritten exactly when its
reference occurs in the list and its identity (which no edit ever changes)
equals the searched id, and is untouched otherwise.  Overwriting with the
same body is idempotent, so duplicate references are covered too. -/
theorem foldl_edit_raw_pointwise (mid : Nat) (body : String) :
    ∀ (refs : List Nat) (w : World) (p : Nat),
      ((refs.map MsgSlot.raw).foldl
        (fun w' s =>
          if s.get_message_id w' = some mid then s.dispatch_edit body w' else w') w).heapMsgs[p]?
      = (w.heapMsgs[p]?).map (fun m =>
          if p ∈ refs ∧ m.message_id = mid then { m with body := body } else m) := by
  intro refs
  induction refs with
  | nil =>
      intro w p
      cases h : w.heapMsgs[p]? <;> simp [h]
  | cons r rest ih =>
      intro w p
      rw [List.map_cons, List.foldl_cons]
      by_cases hc : (MsgSlot.raw r).get_message_id w = some mid
      · rw [if_pos hc, MsgSlot.dispatch_edit]
        rw [MsgSlot.get_message_id] at hc
        obtain ⟨m0, hm0, hid0⟩ : ∃ m0, w.heapMsgs[r]? = some m0 ∧ m0.message_id = mid := by
          cases h : w.heapMsgs[r]? with
          | none => rw [h] at hc; simp at hc
          | some m0 => rw [h] at hc; simp at hc; exact ⟨m0, rfl, hc⟩
        rw [ih]
        rcases eq_or_ne p r with rfl | hne
        · have h1 : (Message.edit p body w).heapMsgs[p]? = some { m0 with body := body } := by
            rw [Message.edit]
            simp [listModify_getElem?_self, hm0]
          rw [h1, hm0]
          simp [hid0]
        · have h2 : (Message.edit r body w).heapMsgs[p]? = w.heapMsgs[p]? := by
            rw [Message.edit]
            exact listModify_getElem?_ne _ r p (Ne.symm hne) _
          rw [h2]
          cases h : w.heapMsgs[p]? <;> simp [h, hne]
      · rw [if_neg hc, ih]
        rw [MsgSlot.get_message_id] at hc
        rcases eq_or_ne p r with rfl | hne
        · cases h : w.heapMsgs[p]? with
          | none => simp [h]
          | some m =>
              rw [h] at hc
              simp only [Option.map_some', Option.some.injEq] at hc
              simp [h, hc]
        · cases h : w.heapMsgs[p]? <;> simp [h, hne]

/-- Lemma: the scan over raw messages touches only the message heap — the
users heap, the unit of work, the store and the commit flag are frame. -/
theorem foldl_edit_raw_frame (mid : Nat) (body : String) :
    ∀ (refs : List Nat) (w : World),
      (((refs.map MsgSlot.raw).foldl
        (fun w' s =>
          if s.get_message_id w' = some mid then s.dispatch_edit body w' else w') w).heapUsers
          = w.heapUsers)
      ∧ (((refs.map MsgSlot.raw).foldl
        (fun w' s =>
          if s.get_message_id w' = some mid then s.dispatch_edit body w' else w') w).uow
          = w.uow)
      ∧ (((refs.map MsgSlot.raw).foldl
        (fun w' s =>
          if s.get_message_id w' = some mid then s.dispatch_edit body w' else w') w).db
          = w.db)
      ∧ (((refs.map MsgSlot.raw).foldl
        (fun w' s =>
          if s.get_message_id w' = some mid then s.dispatch_edit body w' else w') w).txCommitted
          = w.txCommitted) := by
  intro refs
  induction refs with
  | nil => intro w; exact ⟨rfl, rfl, rfl, rfl⟩
  | cons r rest ih =>
      intro w
      rw [List.map_cons, List.foldl_cons]
      by_cases hc : (MsgSlot.raw r).get_message_id w = some mid
      · rw [if_pos hc, MsgSlot.dispatch_edit]
        exact ih (Message.edit r body w)
      · rw [if_neg hc]
        exact ih w

/-- Claim C9: for every User (owning any list of raw messages) and every
message_id, User.edit_message matching no owned message is a silent no-op
(no error, the whole state unchanged); in general the scan leaves the users
heap (so the name), the unit of work, the store and the commit flag
untouched, and pointwise every owned message whose identity matches has its
body overwritten with the given body while every other heap cell is
unchanged. -/
theorem user_edit_message_noop_or_overwrite (w : World) (uref mid : Nat)
    (body : String) (u : User) (refs : List Nat)
    (hu : w.heapUsers[uref]? = some u)
    (hml : u.messages = refs.map MsgSlot.raw) :
    ((∀ s ∈ u.messages, s.get_message_id w ≠ some mid) →
        User.edit_message uref mid body w = w)
    ∧ (User.edit_message uref mid body w).heapUsers = w.heapUsers
    ∧ (User.edit_message uref mid body w).uow = w.uow
    ∧ (User.edit_message uref mid body w).db = w.db
    ∧ (User.edit_message uref mid body w).txCommitted = w.txCommitted
    ∧ ∀ p : Nat, (User.edit_message uref mid body w).heapMsgs[p]?
        = (w.heapMsgs[p]?).map (fun m =>
            if p ∈ refs ∧ m.message_id = mid then { m with body := body } else m) := by
  have hframe := foldl_edit_raw_frame mid body refs w
  refine ⟨?_, ?_, ?_, ?_, ?_, ?_⟩
  · intro hnone
    rw [user_edit_message_eq uref mid body w u hu]
    exact foldl_edit_no_match mid body u.messages w hnone
  · rw [user_edit_message_eq uref mid body w u hu, hml]; exact hframe.1
  · rw [user_edit_message_eq uref mid body w u hu, hml]; exact hframe.2.1
  · rw [user_edit_message_eq uref mid body w u hu, hml]; exact hframe.2.2.1
  · rw [user_edit_message_eq uref mid body w u hu, hml]; exact hframe.2.2.2
  · intro p
    rw [user_edit_message_eq uref mid body w u hu, hml]
    exact foldl_edit_raw_pointwise mid body refs w p

/-- A user owning three raw messages, two of which share the identity 7. -/
def c9World : World :=
  { heapMsgs := [⟨7, "a"⟩, ⟨8, "b"⟩, ⟨7, "c"⟩],
    heapUsers := [⟨1, "ann", [MsgSlot.raw 0, MsgSlot.raw 1, MsgSlot.raw 2]⟩],
    uow := ⟨[], []⟩, db := ⟨[], []⟩, txCommitted := false }

/-- Witness for claim C9 on a three-message user: editing id 9 (no match)
changes nothing; editing id 7 overwrites the bodies of exactly the two
matching messages, skips the non-matching one, and leaves the user (hence
the name) untouched. -/
theorem user_edit_message_noop_or_overwrite_witness :
    User.edit_message 0 9 "zzz" c9World = c9World
    ∧ (User.edit_message 0 7 "zzz" c9World).heapMsgs[0]? = some ⟨7, "zzz"⟩
    ∧ (User.edit_message 0 7 "zzz" c9World).heapMsgs[1]? = some ⟨8, "b"⟩
    ∧ (User.edit_message 0 7 "zzz" c9World).heapMsgs[2]? = some ⟨7, "zzz"⟩
    ∧ (User.edit_message 0 7 "zzz" c9World).heapUsers = c9World.heapUsers := by
  have h9 := user_edit_message_noop_or_overwrite c9World 0 9 "zzz"
    ⟨1, "ann", [MsgSlot.raw 0, MsgSlot.raw 1, MsgSlot.raw 2]⟩ [0, 1, 2] rfl rfl
  have h7 := user_edit_message_noop_or_overwrite c9World 0 7 "zzz"
    ⟨1, "ann", [MsgSlot.raw 0, MsgSlot.raw 1, MsgSlot.raw 2]⟩ [0, 1, 2] rfl rfl
  exact ⟨h9.1 (by decide),
    (h7.2.2.2.2.2 0).trans (by decide),
    (h7.2.2.2.2.2 1).trans (by decide),
    (h7.2.2.2.2.2 2).trans (by decide),
    h7.2.1⟩

/-- Witness for claim C6 at a concrete unit of work. -/
theorem register_append_no_dedup_witness :
    dictList ((⟨[], []⟩ : UnitOfWork Nat Nat).register_dirty 1 5).dirty 1 = [5]
    ∧ dictList ((⟨[], []⟩ : UnitOfWork Nat Nat).register_dirty_iter 1 5 3).dirty 1
        = [5, 5, 5]
    ∧ dictList ((⟨[], []⟩ : UnitOfWork Nat Nat).register_new_iter 1 5 2).new 1
        = [5, 5] := by
  have h := register_append_no_dedup (⟨[], []⟩ : UnitOfWork Nat Nat) 1 5
  exact ⟨h.1, h.2.2.1 3, h.2.2.2 2⟩

/-- Witness for claim C8 at a concrete registry. -/
theorem registry_last_write_wins_witness :
    Registry.get
        (Registry.register_mapper
          (Registry.register_mapper ([(2, ⟨true, 7⟩)] : Registry Nat) 1 ⟨true, 0⟩)
          1 ⟨true, 1⟩) 1
      = Except.ok ⟨true, 1⟩
    ∧ Registry.get ([(2, ⟨true, 7⟩)] : Registry Nat) 5
        = Except.error "Mapper not found" := by
  have h := registry_last_write_wins ([(2, ⟨true, 7⟩)] : Registry Nat) 1
    ⟨true, 0⟩ ⟨true, 1⟩ rfl
  exact ⟨h.1, h.2 5 rfl⟩

/-- Witness for claim C10: a kind registered with a falsy value still fails
resolution, while any successful resolution returns a truthy mapper. -/
theorem registry_get_requires_truthy_witness :
    Registry.get (Registry.register_mapper ([] : Registry Nat) 0 ⟨false, 3⟩) 0
      = Except.error "Mapper not found"
    ∧ (⟨true, 4⟩ : MapperV).truthy = true := by
  have h := registry_get_requires_truthy ([] : Registry Nat) 0 ⟨false, 3⟩ rfl
  exact ⟨h.1, h.2 [(0, ⟨true, 4⟩)] 0 ⟨true, 4⟩ rfl⟩

/-- Witness for claim C3: with kind 2 unregistered, commit flushes the
earlier kind 1, then stops with the mapper-not-found error, never reaching
the later entry or the transaction commit. -/
theorem commit_fail_fast_partial_flush_witness :
    commitRun ([(1, ⟨true, 0⟩)] : Registry Nat)
        ([((1 : Nat), [(10 : Nat)])] ++ (2, [20]) :: [(1, [30])])
      = ⟨[(1, [10])], false, some "Mapper not found"⟩ := by
  refine commit_fail_fast_partial_flush ([(1, ⟨true, 0⟩)] : Registry Nat)
    [(1, [10])] [(1, [30])] 2 [20] ?_ rfl
  intro p hp
  simp only [List.mem_singleton] at hp
  subst hp
  exact ⟨⟨true, 0⟩, rfl⟩

/-- Witness for claim C5 at a concrete unit of work: the outcome ignores
the new map, and everything flushed was a dirty entry. -/
theorem commit_skips_new_and_preserves_state_witness :
    (UnitOfWork.commit ([(1, ⟨true, 0⟩)] : Registry Nat)
        ⟨[(2, [9])], [(1, [5])]⟩).1
      = (UnitOfWork.commit ([(1, ⟨true, 0⟩)] : Registry Nat) ⟨[], [(1, [5])]⟩).1
    ∧ ((1, [5]) : Nat × List Nat) ∈ [((1 : Nat), [(5 : Nat)])] := by
  have h := commit_skips_new_and_preserves_state
    ([(1, ⟨true, 0⟩)] : Registry Nat) [(2, [9])] [] [(1, [5])]
  exact ⟨h.1, h.2.2.2 (1, [5]) (by decide)⟩
